import Mathlib

/-!
# Quantum-token payment protocol: a shallow embedding

This file embeds the core of the quantum payment demo (`src/app.py`) in Lean:
the SHA-256-based `mac` function, the TTP's token issuance and cryptogram
verification, the client's local qubit preparation/measurement, and proves the
specification claims about them.

Bit/basis strings are Python `str` values holding `'0'`/`'1'` characters; they
are embedded as `List Char`.  Python `dict`s become association lists, a raised
`KeyError`/`IndexError` becomes an `Except` error, and the quantum simulator's
measurement randomness becomes an explicit stream of coins.
-/

namespace QuantumPayments

/-! ## SHA-256 over byte lists (`hashlib.sha256`)

Machine words are `Nat` taken modulo `2^32`; bytes are `Nat` below `256`.
This mirrors the FIPS 180-4 algorithm that `hashlib.sha256` computes. -/

/-- The word modulus `2^32` of SHA-256. -/
def w32 : Nat := 4294967296

/-- Right rotation of a 32-bit word by `n` places. -/
def rotr (n x : Nat) : Nat := ((x >>> n) ||| (x <<< (32 - n))) % w32

/-- Bitwise complement on 32 bits. -/
def not32 (x : Nat) : Nat := x ^^^ (w32 - 1)

/-- SHA-256 choice function. -/
def ch (e f g : Nat) : Nat := (e &&& f) ^^^ (not32 e &&& g)

/-- SHA-256 majority function. -/
def maj (a b c : Nat) : Nat := (a &&& b) ^^^ (a &&& c) ^^^ (b &&& c)

/-- SHA-256 big sigma-0. -/
def bsig0 (x : Nat) : Nat := rotr 2 x ^^^ rotr 13 x ^^^ rotr 22 x

/-- SHA-256 big sigma-1. -/
def bsig1 (x : Nat) : Nat := rotr 6 x ^^^ rotr 11 x ^^^ rotr 25 x

/-- SHA-256 small sigma-0. -/
def ssig0 (x : Nat) : Nat := rotr 7 x ^^^ rotr 18 x ^^^ (x >>> 3)

/-- SHA-256 small sigma-1. -/
def ssig1 (x : Nat) : Nat := rotr 17 x ^^^ rotr 19 x ^^^ (x >>> 10)

/-- The 64 SHA-256 round constants. -/
def shaK : List Nat :=
  [1116352408, 1899447441, 3049323471, 3921009573, 961987163, 1508970993,
   2453635748, 2870763221, 3624381080, 310598401, 607225278, 1426881987,
   1925078388, 2162078206, 2614888103, 3248222580, 3835390401, 4022224774,
   264347078, 604807628, 770255983, 1249150122, 1555081692, 1996064986,
   2554220882, 2821834349, 2952996808, 3210313671, 3336571891, 3584528711,
   113926993, 338241895, 666307205, 773529912, 1294757372, 1396182291,
   1695183700, 1986661051, 2177026350, 2456956037, 2730485921, 2820302411,
   3259730800, 3345764771, 3516065817, 3600352804, 4094571909, 275423344,
   430227734, 506948616, 659060556, 883997877, 958139571, 1322822218,
   1537002063, 1747873779, 1955562222, 2024104815, 2227730452, 2361852424,
   2428436474, 2756734187, 3204031479, 3329325298]

/-- The eight initial SHA-256 hash words. -/
def shaInit : Nat × Nat × Nat × Nat × Nat × Nat × Nat × Nat :=
  (1779033703, 3144134277, 1013904242, 2773480762,
   1359893119, 2600822924, 528734635, 1541459225)

/-- A 64-bit length, as eight big-endian bytes. -/
def be64 (n : Nat) : List Nat :=
  [(n >>> 56) % 256, (n >>> 48) % 256, (n >>> 40) % 256, (n >>> 32) % 256,
   (n >>> 24) % 256, (n >>> 16) % 256, (n >>> 8) % 256, n % 256]

/-- SHA-256 padding: append `0x80`, zeros, then the 64-bit big-endian bit
length, reaching a multiple of 64 bytes. -/
def shaPad (msg : List Nat) : List Nat :=
  msg ++ [0x80] ++ List.replicate ((64 - ((msg.length + 9) % 64)) % 64) 0
      ++ be64 (8 * msg.length)

/-- The `t`-th big-endian 32-bit word of a 64-byte block. -/
def blockWord (block : List Nat) (t : Nat) : Nat :=
  (block.getD (4 * t) 0) <<< 24 ||| (block.getD (4 * t + 1) 0) <<< 16 |||
  (block.getD (4 * t + 2) 0) <<< 8 ||| block.getD (4 * t + 3) 0

/-- The 64-entry message schedule of one block. -/
def schedule (block : List Nat) : List Nat :=
  (List.range 48).foldl
    (fun w t =>
      w ++ [(ssig1 (w.getD (t + 14) 0) + w.getD (t + 9) 0 +
             ssig0 (w.getD (t + 1) 0) + w.getD t 0) % w32])
    ((List.range 16).map (blockWord block))

/-- One SHA-256 round. -/
def round (kt wt : Nat) (s : Nat × Nat × Nat × Nat × Nat × Nat × Nat × Nat) :
    Nat × Nat × Nat × Nat × Nat × Nat × Nat × Nat :=
  match s with
  | (a, b, c, d, e, f, g, h) =>
    let t1 := (h + bsig1 e + ch e f g + kt + wt) % w32
    let t2 := (bsig0 a + maj a b c) % w32
    ((t1 + t2) % w32, a, b, c, (d + t1) % w32, e, f, g)

/-- Compress one 64-byte block into the running hash state. -/
def compress (s : Nat × Nat × Nat × Nat × Nat × Nat × Nat × Nat)
    (block : List Nat) : Nat × Nat × Nat × Nat × Nat × Nat × Nat × Nat :=
  let w := schedule block
  let r := (List.range 64).foldl
    (fun t i => round (shaK.getD i 0) (w.getD i 0) t) s
  match s, r with
  | (a, b, c, d, e, f, g, h), (a', b', c', d', e', f', g', h') =>
    ((a + a') % w32, (b + b') % w32, (c + c') % w32, (d + d') % w32,
     (e + e') % w32, (f + f') % w32, (g + g') % w32, (h + h') % w32)

/-- A 32-bit word as four big-endian bytes. -/
def wordBytes (x : Nat) : List Nat :=
  [(x >>> 24) % 256, (x >>> 16) % 256, (x >>> 8) % 256, x % 256]

/-- The final hash state, emitted as 32 big-endian bytes. -/
def digestBytes (s : Nat × Nat × Nat × Nat × Nat × Nat × Nat × Nat) :
    List Nat :=
  wordBytes s.1 ++ wordBytes s.2.1 ++ wordBytes s.2.2.1 ++
  wordBytes s.2.2.2.1 ++ wordBytes s.2.2.2.2.1 ++ wordBytes s.2.2.2.2.2.1 ++
  wordBytes s.2.2.2.2.2.2.1 ++ wordBytes s.2.2.2.2.2.2.2

/-- SHA-256 digest of a byte list: 32 bytes. -/
def sha256 (msg : List Nat) : List Nat :=
  digestBytes ((List.range ((shaPad msg).length / 64)).foldl
    (fun s i => compress s (((shaPad msg).drop (64 * i)).take 64)) shaInit)

/-! ## UTF-8 encoding (`str.encode()`) -/

/-- The UTF-8 bytes of one character. -/
def utf8Bytes (c : Char) : List Nat :=
  let n := c.toNat
  if n < 0x80 then [n]
  else if n < 0x800 then
    [0xc0 ||| (n >>> 6), 0x80 ||| (n &&& 0x3f)]
  else if n < 0x10000 then
    [0xe0 ||| (n >>> 12), 0x80 ||| ((n >>> 6) &&& 0x3f), 0x80 ||| (n &&& 0x3f)]
  else
    [0xf0 ||| (n >>> 18), 0x80 ||| ((n >>> 12) &&& 0x3f),
     0x80 ||| ((n >>> 6) &&& 0x3f), 0x80 ||| (n &&& 0x3f)]

/-- The UTF-8 bytes of a string, as Python's `str.encode()` produces. -/
def strBytes (s : String) : List Nat := s.data.flatMap utf8Bytes

/-! ## The `mac` function (`src/app.py`, lines 10-20) -/

/-- Security parameter: length of the quantum token (`LAMBDA = 8`). -/
def LAMBDA : Nat := 8

/-- A byte rendered as Python's `format(byte, '08b')`: eight binary digit
characters, most significant bit first (digest bytes are below 256, so the
zero-padded width-8 format is exactly these eight bits). -/
def byteBits (n : Nat) : List Char :=
  [if n.testBit 7 then '1' else '0', if n.testBit 6 then '1' else '0',
   if n.testBit 5 then '1' else '0', if n.testBit 4 then '1' else '0',
   if n.testBit 3 then '1' else '0', if n.testBit 2 then '1' else '0',
   if n.testBit 1 then '1' else '0', if n.testBit 0 then '1' else '0']

/-- The MAC `mac(secret, message)`: SHA-256 of the concatenation, rendered as
a binary string, truncated to the first `LAMBDA` characters. -/
def mac (secret message : String) : List Char :=
  ((sha256 (strBytes (secret ++ message))).flatMap byteBits).take LAMBDA

/-! ## Python fault model

A raised `KeyError`/`IndexError` aborts the current computation; it is embedded
as the error side of `Except`.  A `KeyError` carries the missing key and is
tagged with the lookup that raised it (its traceback): the `client_database`
lookup at line 103 of `src/app.py` or the `token_storage` lookup at line 104. -/

/-- A Python runtime fault raised by the TTP's verification code. -/
inductive PyFault where
  /-- A `KeyError` raised by `self.client_database[client_id]` (line 103). -/
  | keyErrorDatabase (key : String)
  /-- A `KeyError` raised by `self.token_storage[client_id]` (line 104). -/
  | keyErrorTokenStorage (key : String)
  /-- An `IndexError` (string index out of range) from `s[j]`. -/
  | indexError
deriving DecidableEq

/-- Equality of `Except` results is decidable componentwise. -/
instance exceptDecEq {ε α : Type} [DecidableEq ε] [DecidableEq α] :
    DecidableEq (Except ε α)
  | .error e, .error e' =>
    match decEq e e' with
    | isTrue h => isTrue (by rw [h])
    | isFalse h => isFalse (fun hh => h (Except.error.inj hh))
  | .error _, .ok _ => isFalse (fun hh => Except.noConfusion hh)
  | .ok _, .error _ => isFalse (fun hh => Except.noConfusion hh)
  | .ok a, .ok a' =>
    match decEq a a' with
    | isTrue h => isTrue (by rw [h])
    | isFalse h => isFalse (fun hh => h (Except.ok.inj hh))

/-- Python sequence indexing `s[j]` for `j ≥ 0`: the element, or `IndexError`
when the index is out of range. -/
def pyGet {α : Type} (s : List α) (j : Nat) : Except PyFault α :=
  match s[j]? with
  | some c => .ok c
  | none => .error .indexError

/-- A Python `for` loop over a list of indices that appends `f j` to an
accumulating list, aborting at the first raised fault. -/
def collectE {α : Type} (f : Nat → Except PyFault α) :
    List Nat → Except PyFault (List α)
  | [] => .ok []
  | j :: rest =>
    match f j with
    | .error e => .error e
    | .ok x =>
      match collectE f rest with
      | .error e => .error e
      | .ok xs => .ok (x :: xs)

/-! ## Quantum state simulator

Modelled from the spec: the `Qubit` gate/measurement semantics live in the
external netqasm/SquidASM simulator, not under `src/`; the spec (§4.2) gives
the outcome law.  The qubits this protocol ever prepares stay within the four
states `|0⟩, |1⟩, |+⟩, |−⟩`, on which `X`, `Z`, `H` act (up to a global phase,
which no measurement can observe).  A computational-basis measurement of `|0⟩`
or `|1⟩` is deterministic; of `|+⟩` or `|−⟩` it returns a fresh uniform random
bit, embedded as an explicit `coin` drawn from a per-position coin stream. -/

/-- One of the four single-qubit states this protocol prepares. -/
inductive QState where
  | zero
  | one
  | plus
  | minus
deriving DecidableEq

/-- The Pauli `X` gate (bit flip), up to global phase. -/
def gateX : QState → QState
  | .zero => .one
  | .one => .zero
  | .plus => .plus
  | .minus => .minus

/-- The Pauli `Z` gate (phase flip), up to global phase. -/
def gateZ : QState → QState
  | .zero => .zero
  | .one => .one
  | .plus => .minus
  | .minus => .plus

/-- The Hadamard gate, up to global phase. -/
def gateH : QState → QState
  | .zero => .plus
  | .one => .minus
  | .plus => .zero
  | .minus => .one

/-- Computational-basis measurement: deterministic on `|0⟩`/`|1⟩`, a fresh
uniform coin on `|+⟩`/`|−⟩`. -/
def measureComp : QState → Bool → Bool
  | .zero, _ => false
  | .one, _ => true
  | .plus, coin => coin
  | .minus, coin => coin

/-- Python `str(result)` for a measurement result: `0` to `'0'`, `1` to `'1'`. -/
def bitChar (x : Bool) : Char := if x then '1' else '0'

/-! ## Holder (`ClientProgram.run`, `src/app.py` lines 174-245) -/

/-- Local preparation of the qubit for position `j` (lines 194-204): start at
`|0⟩`; in the computational basis (`B[j] == '0'`) apply `X` when the bit is
`'1'`; otherwise apply `H`, then `Z` when the bit is `'1'`. -/
def prepareQubit (bj Bj : Char) : QState :=
  if Bj == '0' then
    (if bj == '1' then gateX .zero else .zero)
  else
    (if bj == '1' then gateZ (gateH .zero) else gateH .zero)

/-- The preparation loop `for j in range(LAMBDA)` (lines 193-204).  Both
branches read `b[j]` after the `B[j] == '0'` test, so the reads are hoisted
into one sequence with identical fault behaviour. -/
def prepareQubits (b B : List Char) : Except PyFault (List QState) :=
  collectE
    (fun j =>
      match pyGet B j with
      | .error e => .error e
      | .ok Bj =>
        match pyGet b j with
        | .error e => .error e
        | .ok bj => .ok (prepareQubit bj Bj))
    (List.range LAMBDA)

/-- Measurement of one qubit in the basis selected by `m[j]` (lines 219-227):
apply `H` first when measuring in the Hadamard basis, then measure in the
computational basis with a fresh coin. -/
def measureQubit (q : QState) (mj : Char) (coin : Bool) : Bool :=
  measureComp (if mj == '1' then gateH q else q) coin

/-- The measurement loop (lines 217-232), producing the cryptogram string. -/
def measureQubits (qubits : List QState) (m : List Char) (coins : Nat → Bool) :
    Except PyFault (List Char) :=
  collectE
    (fun j =>
      match pyGet qubits j with
      | .error e => .error e
      | .ok q =>
        match pyGet m j with
        | .error e => .error e
        | .ok mj => .ok (bitChar (measureQubit q mj (coins j))))
    (List.range LAMBDA)

/-- The Holder's whole run on a received token description `(b, B)`: prepare
each qubit, compute `m = mac(secret, merchant_id)`, measure each qubit in the
basis `m[j]`, and emit the cryptogram. -/
def holderKappa (b B : List Char) (secret_token merchant_id : String)
    (coins : Nat → Bool) : Except PyFault (List Char) :=
  match prepareQubits b B with
  | .error e => .error e
  | .ok qubits => measureQubits qubits (mac secret_token merchant_id) coins

/-! ## Issuer / TTP (`TTPProgram`, `src/app.py` lines 23-147) -/

/-- A stored quantum token: bit string `b` and basis string `B`. -/
structure Token where
  b : List Char
  B : List Char
deriving DecidableEq

/-- The TTP's mutable state: the pre-shared secret registry
(`client_database`) and the token store (`token_storage`), embedded as
insertion-ordered association lists. -/
structure TTPState where
  client_database : List (String × String)
  token_storage : List (String × Token)
deriving DecidableEq

/-- The TTP's state as constructed in `TTPProgram.__init__` (lines 33-40). -/
def initialTTP : TTPState :=
  ⟨[("client_alice", "secret_token_abc123")], []⟩

/-- Python `d[k] = v` on an insertion-ordered dict: replace the value in
place when the key is present, append otherwise. -/
def dictSet {α : Type} (l : List (String × α)) (k : String) (v : α) :
    List (String × α) :=
  if l.any (fun p => p.1 == k) then
    l.map (fun p => if p.1 == k then (k, v) else p)
  else
    l ++ [(k, v)]

/-- The issuance step (lines 58-87): the freshly generated random strings
`b`, `B` are stored as the token of `"client_alice"` (the hard-coded
`client_id` of line 68) by plain dict assignment, and `{b, B}` is sent to the
Client. -/
def issueStep (st : TTPState) (b B : List Char) : TTPState :=
  { st with token_storage := dictSet st.token_storage "client_alice" ⟨b, B⟩ }

/-- A generated random bit string `''.join(str(random.randint(0,1)) for _ in
range(LAMBDA))` (lines 59-60), with the random draws made explicit. -/
def randomBitString (bits : Nat → Bool) : List Char :=
  (List.range LAMBDA).map (fun j => bitChar (bits j))

/-- The verification request relayed by the Merchant (lines 93-95, 278-282). -/
structure VerificationRequest where
  client_id : String
  kappa : List Char
  merchant_id : String
deriving DecidableEq

/-- The verification loop `for j in range(LAMBDA)` (lines 117-128),
accumulating `(matches, total_checked)`: position `j` is checked when
`m[j] == B_original[j]`, and a checked position matches when
`kappa[j] == b_original[j]`.  String indexing can raise `IndexError`. -/
def checkList (m B b kappa : List Char) :
    List Nat → Nat × Nat → Except PyFault (Nat × Nat)
  | [], acc => .ok acc
  | j :: rest, (numMatches, total_checked) =>
    match pyGet m j with
    | .error e => .error e
    | .ok mj =>
      match pyGet B j with
      | .error e => .error e
      | .ok Bj =>
        if mj == Bj then
          match pyGet kappa j with
          | .error e => .error e
          | .ok kj =>
            match pyGet b j with
            | .error e => .error e
            | .ok bj =>
              if kj == bj then
                checkList m B b kappa rest (numMatches + 1, total_checked + 1)
              else
                checkList m B b kappa rest (numMatches, total_checked + 1)
        else
          checkList m B b kappa rest (numMatches, total_checked)

/-- The verification verdict (lines 108-135): recompute
`m = mac(secret_token, merchant_id)`, run the check loop, and accept iff
`matches == total_checked and total_checked > 0`. -/
def verifyCore (b_original B_original : List Char)
    (secret_token merchant_id : String) (kappa : List Char) :
    Except PyFault Bool :=
  match checkList (mac secret_token merchant_id) B_original b_original kappa
      (List.range LAMBDA) (0, 0) with
  | .error e => .error e
  | .ok (numMatches, total_checked) =>
    .ok ((numMatches == total_checked) && decide (0 < total_checked))

/-- The TTP's whole verification step (lines 93-144): look up the secret
(line 103, `KeyError` when absent), look up the stored token (line 104,
`KeyError` when absent), compute the verdict, and answer the Merchant.
Neither dictionary is written. -/
def verifyStep (st : TTPState) (req : VerificationRequest) :
    Except PyFault (Bool × TTPState) :=
  match List.lookup req.client_id st.client_database with
  | none => .error (.keyErrorDatabase req.client_id)
  | some secret_token =>
    match List.lookup req.client_id st.token_storage with
    | none => .error (.keyErrorTokenStorage req.client_id)
    | some stored =>
      match verifyCore stored.b stored.B secret_token req.merchant_id
          req.kappa with
      | .error e => .error e
      | .ok accepted => .ok (accepted, st)

/-! ## Specification-side counting

The counts the verification loop computes, written as `countP` over the
position range, for stating the acceptance characterization. -/

/-- Position `j` is checked: the recomputed basis agrees with the stored
basis there. -/
def checkedP (m B : List Char) (j : Nat) : Bool :=
  m.getD j ' ' == B.getD j ' '

/-- Position `j` is checked and the cryptogram agrees with the stored bits
there. -/
def matchedP (m B b kappa : List Char) (j : Nat) : Bool :=
  checkedP m B j && (kappa.getD j ' ' == b.getD j ' ')

/-- The count `total_checked`: how many of the `LAMBDA` positions are checked. -/
def totalChecked (m B : List Char) : Nat :=
  (List.range LAMBDA).countP (checkedP m B)

/-- The count `matches`: how many of the `LAMBDA` positions are checked and
agree. -/
def matchCount (m B b kappa : List Char) : Nat :=
  (List.range LAMBDA).countP (matchedP m B b kappa)

/-- Flipping the single cryptogram character at position `j`. -/
def flipChar (c : Char) : Char := if c == '0' then '1' else '0'

/-- The cryptogram with the bit at position `j` flipped. -/
def flipAt (kappa : List Char) (j : Nat) : List Char :=
  kappa.set j (flipChar (kappa.getD j ' '))

/-- The cryptogram an honest Holder produces, position by position: prepare
`(b[j], B[j])`, then measure in basis `m[j]` with coin `j`.  `holderKappa`
computes exactly this when the token strings have length `LAMBDA`. -/
def honestKappa (b B m : List Char) (coins : Nat → Bool) : List Char :=
  (List.range LAMBDA).map (fun j =>
    bitChar (measureQubit (prepareQubit (b.getD j ' ') (B.getD j ' '))
      (m.getD j ' ') (coins j)))

end QuantumPayments

set_option maxRecDepth 100000

namespace QuantumPayments

example : sha256 (strBytes "abc") =
    [0xba, 0x78, 0x16, 0xbf, 0x8f, 0x01, 0xcf, 0xea,
     0x41, 0x41, 0x40, 0xde, 0x5d, 0xae, 0x22, 0x23,
     0xb0, 0x03, 0x61, 0xa3, 0x96, 0x17, 0x7a, 0x9c,
     0xb4, 0x10, 0xff, 0x61, 0xf2, 0x00, 0x15, 0xad] := by decide

example : mac "secret_token_abc123" "merchant_shop_xyz" =
    ['0', '0', '1', '1', '0', '0', '0', '0'] := by decide

example : holderKappa "10110010".data "01101100".data "secret_token_abc123"
    "merchant_shop_xyz" (fun _ => false) = .ok "10100010".data := by decide

example : verifyCore "10110010".data "01101100".data "secret_token_abc123"
    "merchant_shop_xyz" "10100010".data = .ok true := by decide

example : verifyStep (issueStep initialTTP "10110010".data "01101100".data)
    ⟨"client_alice", "10100010".data, "merchant_shop_xyz"⟩ =
    .ok (true, issueStep initialTTP "10110010".data "01101100".data) := by
  decide

/-! ## Helper lemmas -/

/-- In-range Python indexing returns the element (any default). -/
lemma pyGet_eq {α : Type} (l : List α) (j : Nat) (d : α) (h : j < l.length) :
    pyGet l j = .ok (l.getD j d) := by
  simp [pyGet, List.getElem?_eq_getElem h, List.getD_eq_getElem l d h]

/-- An in-range `getD` is a member of the list. -/
lemma getD_mem {α : Type} (l : List α) (j : Nat) (d : α) (h : j < l.length) :
    l.getD j d ∈ l := by
  rw [List.getD_eq_getElem l d h]
  exact List.getElem_mem h

/-- Reading a mapped range at an in-range position. -/
lemma getD_map_range {α : Type} (n : Nat) (f : Nat → α) (j : Nat) (d : α)
    (hj : j < n) : ((List.range n).map f).getD j d = f j := by
  have hlen : j < ((List.range n).map f).length := by simpa using hj
  rw [List.getD_eq_getElem _ d hlen, List.getElem_map, List.getElem_range]

/-- A collecting loop with no faulting iteration returns the mapped list. -/
lemma collectE_ok {α : Type} (f : Nat → Except PyFault α) (g : Nat → α)
    (l : List Nat) (h : ∀ j ∈ l, f j = .ok (g j)) :
    collectE f l = .ok (l.map g) := by
  induction l with
  | nil => rfl
  | cons j rest ih =>
    have hj := h j (List.mem_cons_self j rest)
    have hrest := ih (fun x hx => h x (List.mem_cons_of_mem _ hx))
    simp [collectE, hj, hrest]

/-- One byte renders as eight binary characters. -/
lemma byteBits_length (n : Nat) : (byteBits n).length = 8 := rfl

/-- Total length of the rendered binary string. -/
lemma flatMap_byteBits_length (l : List Nat) :
    (l.flatMap byteBits).length = 8 * l.length := by
  induction l with
  | nil => rfl
  | cons a t ih => simp [List.flatMap_cons, ih, byteBits]; ring

/-- A SHA-256 digest has 32 bytes. -/
lemma sha256_length (msg : List Nat) : (sha256 msg).length = 32 := by
  simp [sha256, digestBytes, wordBytes]

/-- The MAC has exactly `LAMBDA` characters. -/
lemma mac_length (s m : String) : (mac s m).length = LAMBDA := by
  rw [mac, List.length_take, flatMap_byteBits_length, sha256_length]
  decide

/-- Every character the byte rendering produces is binary. -/
lemma byteBits_binary (n : Nat) : ∀ c ∈ byteBits n, c = '0' ∨ c = '1' := by
  intro c hc
  simp [byteBits] at hc
  rcases hc with h | h | h | h | h | h | h | h <;>
    (split_ifs at h <;> simp [h])

/-- Every MAC character is binary. -/
lemma mac_binary (s m : String) : ∀ c ∈ mac s m, c = '0' ∨ c = '1' := by
  intro c hc
  have hc' := List.mem_of_mem_take hc
  rw [List.mem_flatMap] at hc'
  obtain ⟨a, _, hca⟩ := hc'
  exact byteBits_binary a c hca

/-- The verification loop, over any in-bounds index list, returns the two
counts it accumulates: matched positions and checked positions. -/
lemma checkList_eq (m B b kappa : List Char) (idxs : List Nat) :
    ∀ ma tc : Nat,
      (∀ j ∈ idxs,
        j < m.length ∧ j < B.length ∧ j < kappa.length ∧ j < b.length) →
      checkList m B b kappa idxs (ma, tc) =
        .ok (ma + idxs.countP (matchedP m B b kappa),
             tc + idxs.countP (checkedP m B)) := by
  induction idxs with
  | nil => intro ma tc _; simp [checkList]
  | cons j rest ih =>
    intro ma tc h
    obtain ⟨h1, h2, h3, h4⟩ := h j (List.mem_cons_self j rest)
    have hrest := fun x hx => h x (List.mem_cons_of_mem _ hx)
    rw [checkList, pyGet_eq m j ' ' h1, pyGet_eq B j ' ' h2,
      List.countP_cons, List.countP_cons]
    dsimp only
    cases hc : (m.getD j ' ' == B.getD j ' ') with
    | false =>
      rw [if_neg Bool.false_ne_true, ih ma tc hrest]
      have hcp : checkedP m B j = false := hc
      have hmp : matchedP m B b kappa j = false := by
        rw [matchedP, hcp, Bool.false_and]
      rw [hmp, hcp]
      simp
    | true =>
      rw [if_pos rfl, pyGet_eq kappa j ' ' h3, pyGet_eq b j ' ' h4]
      dsimp only
      have hcp : checkedP m B j = true := hc
      cases hk : (kappa.getD j ' ' == b.getD j ' ') with
      | false =>
        rw [if_neg Bool.false_ne_true, ih ma (tc + 1) hrest]
        have hmp : matchedP m B b kappa j = false := by
          rw [matchedP, hk, Bool.and_false]
        rw [hmp, hcp]
        simp
        omega
      | true =>
        rw [if_pos rfl, ih (ma + 1) (tc + 1) hrest]
        have hmp : matchedP m B b kappa j = true := by
          rw [matchedP, hcp, hk, Bool.true_and]
        rw [hmp, hcp]
        simp
        omega

/-- The verdict the TTP computes, characterized by the two counts: accept iff
every checked position matches and at least one position is checked. -/
lemma verifyCore_eq (b B kappa : List Char) (s mid : String)
    (hb : LAMBDA ≤ b.length) (hB : LAMBDA ≤ B.length)
    (hk : LAMBDA ≤ kappa.length) :
    verifyCore b B s mid kappa =
      .ok ((matchCount (mac s mid) B b kappa ==
            totalChecked (mac s mid) B) &&
           decide (0 < totalChecked (mac s mid) B)) := by
  have hm : (mac s mid).length = LAMBDA := mac_length s mid
  have hbound : ∀ j ∈ List.range LAMBDA,
      j < (mac s mid).length ∧ j < B.length ∧ j < kappa.length ∧
        j < b.length := by
    intro j hj
    rw [List.mem_range] at hj
    exact ⟨by omega, by omega, by omega, by omega⟩
  rw [verifyCore, checkList_eq (mac s mid) B b kappa (List.range LAMBDA) 0 0
    hbound]
  simp [matchCount, totalChecked]

/-- A successful verification step leaves the TTP state exactly as it was. -/
lemma verifyStep_ok_state (st : TTPState) (req : VerificationRequest)
    (v : Bool) (st' : TTPState) (h : verifyStep st req = .ok (v, st')) :
    st' = st := by
  rw [verifyStep] at h
  cases hdb : List.lookup req.client_id st.client_database with
  | none => rw [hdb] at h; simp at h
  | some s =>
    rw [hdb] at h
    dsimp only at h
    cases hts : List.lookup req.client_id st.token_storage with
    | none => rw [hts] at h; simp at h
    | some tok =>
      rw [hts] at h
      dsimp only at h
      cases hvc : verifyCore tok.b tok.B s req.merchant_id req.kappa with
      | error e => rw [hvc] at h; simp at h
      | ok acc =>
        rw [hvc] at h
        simp at h
        exact h.2.symm

/-- The same-basis measurement law on the four protocol states: measuring a
prepared qubit in its preparation basis recovers the encoded bit, whatever
the coin. -/
lemma measure_prepare (bit basis : Char) (hbit : bit = '0' ∨ bit = '1')
    (hbasis : basis = '0' ∨ basis = '1') (coin : Bool) :
    bitChar (measureQubit (prepareQubit bit basis) basis coin) = bit := by
  rcases hbit with rfl | rfl <;> rcases hbasis with rfl | rfl <;>
    cases coin <;> rfl

/-- With an in-bounds token, the preparation loop cannot fault. -/
lemma prepareQubits_ok (b B : List Char) (hb : LAMBDA ≤ b.length)
    (hB : LAMBDA ≤ B.length) :
    prepareQubits b B = .ok ((List.range LAMBDA).map
      (fun j => prepareQubit (b.getD j ' ') (B.getD j ' '))) := by
  apply collectE_ok
  intro j hj
  rw [List.mem_range] at hj
  rw [pyGet_eq B j ' ' (by omega), pyGet_eq b j ' ' (by omega)]

/-- With enough qubits and basis characters, the measurement loop cannot
fault. -/
lemma measureQubits_ok (qs : List QState) (m : List Char) (coins : Nat → Bool)
    (hq : LAMBDA ≤ qs.length) (hm : LAMBDA ≤ m.length) :
    measureQubits qs m coins = .ok ((List.range LAMBDA).map
      (fun j => bitChar (measureQubit (qs.getD j .zero) (m.getD j ' ')
        (coins j)))) := by
  apply collectE_ok
  intro j hj
  rw [List.mem_range] at hj
  rw [pyGet_eq qs j .zero (by omega), pyGet_eq m j ' ' (by omega)]

/-- On an in-bounds token, the Holder's run emits `honestKappa`. -/
lemma holderKappa_eq (b B : List Char) (s mid : String) (coins : Nat → Bool)
    (hb : LAMBDA ≤ b.length) (hB : LAMBDA ≤ B.length) :
    holderKappa b B s mid coins =
      .ok (honestKappa b B (mac s mid) coins) := by
  rw [holderKappa, prepareQubits_ok b B hb hB]
  dsimp only
  rw [measureQubits_ok _ _ coins (by simp)
    (by rw [mac_length])]
  have hmaps : (List.range LAMBDA).map
      (fun j => bitChar (measureQubit
        (((List.range LAMBDA).map
          (fun i => prepareQubit (b.getD i ' ') (B.getD i ' '))).getD j .zero)
        ((mac s mid).getD j ' ') (coins j))) =
      honestKappa b B (mac s mid) coins := by
    unfold honestKappa
    apply List.map_congr_left
    intro j hj
    rw [List.mem_range] at hj
    rw [getD_map_range LAMBDA _ j QState.zero hj]
  exact congrArg Except.ok hmaps

/-- The honest cryptogram has `LAMBDA` characters. -/
lemma honestKappa_length (b B m : List Char) (coins : Nat → Bool) :
    (honestKappa b B m coins).length = LAMBDA := by
  simp [honestKappa]

/-- Position `j` of the honest cryptogram. -/
lemma honestKappa_getD (b B m : List Char) (coins : Nat → Bool) (j : Nat)
    (hj : j < LAMBDA) :
    (honestKappa b B m coins).getD j ' ' =
      bitChar (measureQubit (prepareQubit (b.getD j ' ') (B.getD j ' '))
        (m.getD j ' ') (coins j)) := by
  unfold honestKappa
  exact getD_map_range LAMBDA _ j ' ' hj

/-- At every checked position the honest cryptogram reproduces the token
bit, whatever the coins. -/
lemma honestKappa_checked (b B m : List Char) (coins : Nat → Bool) (j : Nat)
    (hj : j < LAMBDA) (hbj : b.getD j ' ' = '0' ∨ b.getD j ' ' = '1')
    (hmj : m.getD j ' ' = '0' ∨ m.getD j ' ' = '1')
    (hchk : checkedP m B j = true) :
    (honestKappa b B m coins).getD j ' ' = b.getD j ' ' := by
  rw [honestKappa_getD b B m coins j hj]
  have hchk' : (m.getD j ' ' == B.getD j ' ') = true := hchk
  have hBj : B.getD j ' ' = m.getD j ' ' := (beq_iff_eq.mp hchk').symm
  rw [hBj]
  exact measure_prepare _ _ hbj hmj (coins j)

/-- On the honest cryptogram, every checked position matches. -/
lemma honest_match_eq (b B m : List Char) (coins : Nat → Bool)
    (hblen : LAMBDA ≤ b.length) (hmlen : LAMBDA ≤ m.length)
    (hbbin : ∀ c ∈ b, c = '0' ∨ c = '1')
    (hmbin : ∀ c ∈ m, c = '0' ∨ c = '1') :
    matchCount m B b (honestKappa b B m coins) = totalChecked m B := by
  unfold matchCount totalChecked
  apply List.countP_congr
  intro j hj
  rw [List.mem_range] at hj
  cases hchk : checkedP m B j with
  | false => simp [matchedP, hchk]
  | true =>
    have hkj := honestKappa_checked b B m coins j hj
      (hbbin _ (getD_mem b j ' ' (by omega)))
      (hmbin _ (getD_mem m j ' ' (by omega))) hchk
    have hbeq : ((honestKappa b B m coins).getD j ' ' == b.getD j ' ')
        = true := beq_iff_eq.mpr hkj
    rw [matchedP, hchk, hbeq]
    simp

/-- Strict counting: when one implication between predicates is witnessed to
be strict at a member, the counts are strictly ordered. -/
lemma countP_lt_of_wit (p q : Nat → Bool) :
    ∀ l : List Nat, (∀ x ∈ l, p x = true → q x = true) → ∀ a ∈ l,
      q a = true → p a = false → l.countP p < l.countP q := by
  intro l
  induction l with
  | nil => intro _ a ha; cases ha
  | cons x t ih =>
    intro hpq a ha hqa hpa
    have hpqt : ∀ y ∈ t, p y = true → q y = true :=
      fun y hy => hpq y (List.mem_cons_of_mem _ hy)
    rw [List.countP_cons, List.countP_cons]
    rcases List.mem_cons.mp ha with rfl | hat
    · have hle : t.countP p ≤ t.countP q := List.countP_mono_left hpqt
      rw [hpa, hqa]
      simp
      omega
    · have hlt := ih hpqt a hat hqa hpa
      cases hpx : p x with
      | true =>
        rw [hpq x (List.mem_cons_self x t) hpx]
        simp
        omega
      | false =>
        cases hqx : q x <;> simp <;> omega

/-- Reading inside the taken prefix sees the original list. -/
lemma getD_take (l : List Char) (n j : Nat) (d : Char) (hj : j < n) :
    (l.take n).getD j d = l.getD j d := by
  rw [List.getD_eq_getElem?_getD, List.getD_eq_getElem?_getD,
    List.getElem?_take, if_pos hj]

/-- When the key occurs in the list, the in-place replacement is what a
lookup finds. -/
lemma lookup_map_replace {α : Type} (k : String) (v : α) :
    ∀ l : List (String × α), l.any (fun p => p.1 == k) = true →
      List.lookup k (l.map (fun p => if p.1 == k then (k, v) else p)) =
        some v := by
  intro l
  induction l with
  | nil => intro h; simp at h
  | cons p t ih =>
    intro h
    obtain ⟨p1, p2⟩ := p
    rw [List.map_cons]
    cases hpk : (p1 == k) with
    | true =>
      rw [if_pos rfl, List.lookup_cons, beq_self_eq_true]
    | false =>
      rw [if_neg Bool.false_ne_true]
      have hne : p1 ≠ k := by
        intro he
        rw [he] at hpk
        simp at hpk
      have hkp : (k == p1) = false := beq_eq_false_iff_ne.mpr
        (fun he => hne he.symm)
      rw [List.any_cons, hpk, Bool.false_or] at h
      rw [List.lookup_cons, hkp]
      dsimp only
      exact ih h

/-- When the key does not occur in the list, a lookup finds the appended
entry. -/
lemma lookup_append_self {α : Type} (k : String) (v : α) :
    ∀ l : List (String × α), l.any (fun p => p.1 == k) = false →
      List.lookup k (l ++ [(k, v)]) = some v := by
  intro l
  induction l with
  | nil => intro _; simp [List.lookup_cons]
  | cons p t ih =>
    intro h
    obtain ⟨p1, p2⟩ := p
    rw [List.any_cons, Bool.or_eq_false_iff] at h
    have hkp : (k == p1) = false := beq_eq_false_iff_ne.mpr
      (fun he => by rw [beq_eq_false_iff_ne] at h; exact h.1 he.symm)
    rw [List.cons_append]
    simp [List.lookup_cons, hkp, ih h.2]

/-- Python dict assignment followed by a lookup of the same key returns the
assigned value. -/
lemma lookup_dictSet {α : Type} (l : List (String × α)) (k : String)
    (v : α) : List.lookup k (dictSet l k v) = some v := by
  rw [dictSet]
  cases h : l.any (fun p => p.1 == k) with
  | true => rw [if_pos rfl]; exact lookup_map_replace k v l h
  | false => rw [if_neg Bool.false_ne_true]; exact lookup_append_self k v l h

/-! ## Claim theorems -/

/-- C1: for every stored token `(b, B)`, secret, and cryptogram of length
`λ`, Verify returns a boolean verdict that accepts exactly when
`total_checked > 0` and `matches == total_checked` — position `j` being
checked when `mac(secret, verifier_id)[j] == B[j]` and a checked position
matching when `κ[j] == b[j]` — and when zero positions are checked the
verdict is REJECT (`accepted = false`), not accept-by-default and not an
error. -/
theorem verify_accept_characterization (b B kappa : List Char)
    (secret verifier_id : String) (hb : b.length = LAMBDA)
    (hB : B.length = LAMBDA) (hk : kappa.length = LAMBDA) :
    verifyCore b B secret verifier_id kappa =
      .ok ((matchCount (mac secret verifier_id) B b kappa ==
            totalChecked (mac secret verifier_id) B) &&
           decide (0 < totalChecked (mac secret verifier_id) B)) ∧
    (totalChecked (mac secret verifier_id) B = 0 →
      verifyCore b B secret verifier_id kappa = .ok false) := by
  have h1 := verifyCore_eq b B kappa secret verifier_id hb.ge hB.ge hk.ge
  refine ⟨h1, fun h0 => ?_⟩
  rw [h1, h0]
  simp

/-- C1 witness: the characterization at the concrete end-to-end scenario of
the spec (token `b = 10110010`, `B = 01101100`, the shared secret and the
merchant identity, honest cryptogram `κ = 10100010`). -/
theorem verify_accept_characterization_witness :
    verifyCore "10110010".data "01101100".data "secret_token_abc123"
        "merchant_shop_xyz" "10100010".data =
      .ok ((matchCount (mac "secret_token_abc123" "merchant_shop_xyz")
            "01101100".data "10110010".data "10100010".data ==
            totalChecked (mac "secret_token_abc123" "merchant_shop_xyz")
            "01101100".data) &&
           decide (0 < totalChecked
             (mac "secret_token_abc123" "merchant_shop_xyz")
             "01101100".data)) ∧
    (totalChecked (mac "secret_token_abc123" "merchant_shop_xyz")
        "01101100".data = 0 →
      verifyCore "10110010".data "01101100".data "secret_token_abc123"
        "merchant_shop_xyz" "10100010".data = .ok false) :=
  verify_accept_characterization "10110010".data "01101100".data
    "10100010".data "secret_token_abc123" "merchant_shop_xyz"
    (by decide) (by decide) (by decide)

/-- C2 counterexample: an honest run that REJECTS.  The token `(b, B)` is
delivered unaltered, the Holder measures in `mac(secret, merchant_id)`, the
Issuer recomputes the same basis from the same secret and merchant identity,
and no message is tampered with — yet with `B = 11001111`, everywhere unequal
to the recomputed basis `m = 00110000`, no position is checked and the
verdict is `accepted = false`, refuting acceptance with probability 1 on
every honest run. -/
theorem honest_run_reject_counterexample :
    holderKappa "00000000".data "11001111".data "secret_token_abc123"
        "merchant_shop_xyz" (fun _ => false) = .ok "00000000".data ∧
    verifyCore "00000000".data "11001111".data "secret_token_abc123"
        "merchant_shop_xyz" "00000000".data = .ok false := by
  constructor
  · decide
  · decide

/-- C2 amended: in every honest run in which at least one position is
checked, verification accepts with probability 1: for every possible
sequence of measurement outcomes (every coin stream) every checked position
satisfies `κ[j] == b[j]`, and the verdict is accept.  (When no position is
checked, the zero-evidence policy of C1 makes the honest verdict REJECT
instead.) -/
theorem honest_run_accepts (b B kappa : List Char)
    (secret merchant_id : String) (coins : Nat → Bool)
    (hb : b.length = LAMBDA) (hB : B.length = LAMBDA)
    (hbbin : ∀ c ∈ b, c = '0' ∨ c = '1')
    (hk : holderKappa b B secret merchant_id coins = .ok kappa)
    (hpos : 0 < totalChecked (mac secret merchant_id) B) :
    verifyCore b B secret merchant_id kappa = .ok true := by
  rw [holderKappa_eq b B secret merchant_id coins hb.ge hB.ge] at hk
  have hkk : kappa = honestKappa b B (mac secret merchant_id) coins :=
    (Except.ok.inj hk).symm
  subst hkk
  rw [verifyCore_eq b B _ secret merchant_id hb.ge hB.ge
    (by rw [honestKappa_length])]
  rw [honest_match_eq b B (mac secret merchant_id) coins hb.ge
    (by rw [mac_length]) hbbin (mac_binary secret merchant_id)]
  simp [hpos]

/-- C2 amended witness: the spec scenario accepts — the honest cryptogram
`10100010` produced with the all-zero coin stream verifies. -/
theorem honest_run_accepts_witness :
    verifyCore "10110010".data "01101100".data "secret_token_abc123"
        "merchant_shop_xyz" "10100010".data = .ok true :=
  honest_run_accepts "10110010".data "01101100".data "10100010".data
    "secret_token_abc123" "merchant_shop_xyz" (fun _ => false)
    (by decide) (by decide) (by decide) (by decide) (by decide)

/-- C3: preparing a qubit that encodes `(bit, basis)` — identity or `X` in
the computational basis, `H` then optional `Z` in the Hadamard basis — and
measuring it in the same basis returns exactly that bit, deterministically:
the outcome is independent of the measurement coin. -/
theorem measurement_law (bit basis : Char) (hbit : bit = '0' ∨ bit = '1')
    (hbasis : basis = '0' ∨ basis = '1') (coin : Bool) :
    bitChar (measureQubit (prepareQubit bit basis) basis coin) = bit :=
  measure_prepare bit basis hbit hbasis coin

/-- C3 witness: both coins on a Hadamard-encoded one and a computational
zero. -/
theorem measurement_law_witness :
    bitChar (measureQubit (prepareQubit '1' '1') '1' false) = '1' ∧
    bitChar (measureQubit (prepareQubit '0' '0') '0' true) = '0' :=
  ⟨measurement_law '1' '1' (Or.inr rfl) (Or.inr rfl) false,
   measurement_law '0' '0' (Or.inl rfl) (Or.inl rfl) true⟩

/-- C7: `mac` is deterministic — in this pure embedding it is a function of
its two arguments alone, so repeated calls agree — side-effect free, and
returns exactly `λ = 8` characters, each `'0'` or `'1'`. -/
theorem mac_deterministic_binary (secret message : String) :
    (mac secret message).length = LAMBDA ∧
    (∀ c ∈ mac secret message, c = '0' ∨ c = '1') ∧
    mac secret message = mac secret message :=
  ⟨mac_length secret message, mac_binary secret message, rfl⟩

/-- C7 witness: the spec scenario MAC `00110000` has 8 binary characters. -/
theorem mac_deterministic_binary_witness :
    (mac "secret_token_abc123" "merchant_shop_xyz").length = LAMBDA ∧
    ('1' = '0' ∨ '1' = '1') :=
  ⟨(mac_deterministic_binary "secret_token_abc123" "merchant_shop_xyz").1,
   (mac_deterministic_binary "secret_token_abc123" "merchant_shop_xyz").2.1
     '1' (by decide)⟩

/-- C4 counterexample: verification does not consume the token.  After one
Issue and one completed Verify for `client_alice`, the returned TTP state is
the pre-verification state itself (first conjunct), so the second Verify for
the same holder is the very same application: it succeeds again with the
same verdict instead of failing with the token-store `KeyError`
(`NoOutstandingToken`), and the token is still stored (third conjunct). -/
theorem second_verify_succeeds_counterexample :
    verifyStep (issueStep initialTTP "10110010".data "01101100".data)
        ⟨"client_alice", "10100010".data, "merchant_shop_xyz"⟩ =
      .ok (true, issueStep initialTTP "10110010".data "01101100".data) ∧
    verifyStep (issueStep initialTTP "10110010".data "01101100".data)
        ⟨"client_alice", "10100010".data, "merchant_shop_xyz"⟩ ≠
      .error (.keyErrorTokenStorage "client_alice") ∧
    List.lookup "client_alice"
        (issueStep initialTTP "10110010".data "01101100".data).token_storage
      = some ⟨"10110010".data, "01101100".data⟩ := by
  refine ⟨by decide, by decide, by decide⟩

/-- C4 amended: single use is not enforced — a completed Verify hands back
the TTP state unchanged, so a second Verify of the same request on the
resulting state succeeds with the same verdict rather than failing with
`NoOutstandingToken`. -/
theorem verify_not_single_use (st st' : TTPState)
    (req : VerificationRequest) (v : Bool)
    (h : verifyStep st req = .ok (v, st')) :
    verifyStep st' req = .ok (v, st') := by
  have hst := verifyStep_ok_state st req v st' h
  rw [hst] at h ⊢
  exact h

/-- C4 amended witness: the second Verify of the spec scenario, run on the
state the first Verify returned, succeeds again. -/
theorem verify_not_single_use_witness :
    verifyStep (issueStep initialTTP "10110010".data "01101100".data)
        ⟨"client_alice", "10100010".data, "merchant_shop_xyz"⟩ =
      .ok (true, issueStep initialTTP "10110010".data "01101100".data) :=
  verify_not_single_use
    (issueStep initialTTP "10110010".data "01101100".data)
    (issueStep initialTTP "10110010".data "01101100".data)
    ⟨"client_alice", "10100010".data, "merchant_shop_xyz"⟩ true (by decide)

/-- C5: a Verify request for a holder absent from the secret registry fails
with the registry lookup's fault (the spec's `UnknownHolder`), one for a
holder present there but absent from the token store fails with the store
lookup's fault (the spec's `NoOutstandingToken`), the two faults are
distinct, and in neither case does the Issuer return an `accepted: false`
response — it raises. -/
theorem verify_lookup_faults (st : TTPState) (req : VerificationRequest) :
    (List.lookup req.client_id st.client_database = none →
      verifyStep st req = .error (.keyErrorDatabase req.client_id)) ∧
    (∀ sec, List.lookup req.client_id st.client_database = some sec →
      List.lookup req.client_id st.token_storage = none →
      verifyStep st req = .error (.keyErrorTokenStorage req.client_id)) ∧
    PyFault.keyErrorDatabase req.client_id ≠
      PyFault.keyErrorTokenStorage req.client_id := by
  refine ⟨fun h => ?_, fun sec hs h => ?_, by simp⟩
  · rw [verifyStep, h]
  · rw [verifyStep, hs]
    dsimp only
    rw [h]

/-- C5 witness: an empty registry faults on the registry lookup; the initial
registry with an empty token store faults on the store lookup. -/
theorem verify_lookup_faults_witness :
    verifyStep ⟨[], []⟩ ⟨"client_alice", [], "merchant_shop_xyz"⟩ =
      .error (.keyErrorDatabase "client_alice") ∧
    verifyStep initialTTP ⟨"client_alice", [], "merchant_shop_xyz"⟩ =
      .error (.keyErrorTokenStorage "client_alice") :=
  ⟨(verify_lookup_faults ⟨[], []⟩
      ⟨"client_alice", [], "merchant_shop_xyz"⟩).1 (by decide),
   (verify_lookup_faults initialTTP
      ⟨"client_alice", [], "merchant_shop_xyz"⟩).2.1
     "secret_token_abc123" (by decide) (by decide)⟩

/-- C6: in an honest run, flipping the single cryptogram bit at any checked
position `j` — where `mac(secret, merchant_id)[j] == B[j]` — before it
reaches the Issuer makes Verify return REJECT, for every coin stream. -/
theorem tamper_detection (b B kappa : List Char)
    (secret merchant_id : String) (coins : Nat → Bool) (j : Nat)
    (hb : b.length = LAMBDA) (hB : B.length = LAMBDA)
    (hbbin : ∀ c ∈ b, c = '0' ∨ c = '1')
    (hk : holderKappa b B secret merchant_id coins = .ok kappa)
    (hj : j < LAMBDA)
    (hchecked : (mac secret merchant_id).getD j ' ' = B.getD j ' ') :
    verifyCore b B secret merchant_id (flipAt kappa j) = .ok false := by
  rw [holderKappa_eq b B secret merchant_id coins hb.ge hB.ge] at hk
  have hkk : kappa = honestKappa b B (mac secret merchant_id) coins :=
    (Except.ok.inj hk).symm
  subst hkk
  have hklen :
      (flipAt (honestKappa b B (mac secret merchant_id) coins) j).length
        = LAMBDA := by
    rw [flipAt, List.length_set, honestKappa_length]
  rw [verifyCore_eq b B _ secret merchant_id hb.ge hB.ge hklen.ge]
  have hchk : checkedP (mac secret merchant_id) B j = true :=
    beq_iff_eq.mpr hchecked
  have hbj := hbbin _ (getD_mem b j ' ' (by omega))
  have hmj := mac_binary secret merchant_id _
    (getD_mem (mac secret merchant_id) j ' ' (by rw [mac_length]; omega))
  have hkj : (honestKappa b B (mac secret merchant_id) coins).getD j ' '
      = b.getD j ' ' :=
    honestKappa_checked b B (mac secret merchant_id) coins j hj hbj hmj hchk
  have hflip :
      (flipAt (honestKappa b B (mac secret merchant_id) coins) j).getD j ' '
        = flipChar (b.getD j ' ') := by
    rw [flipAt, List.getD_eq_getElem _ ' '
      (by rw [List.length_set, honestKappa_length]; exact hj),
      List.getElem_set_self, hkj]
  have hneq : flipChar (b.getD j ' ') ≠ b.getD j ' ' := by
    rcases hbj with h | h <;> rw [h] <;> decide
  have hmatF : matchedP (mac secret merchant_id) B b
      (flipAt (honestKappa b B (mac secret merchant_id) coins) j) j
        = false := by
    rw [matchedP, hchk, Bool.true_and, hflip]
    exact beq_eq_false_iff_ne.mpr hneq
  have himp : ∀ x ∈ List.range LAMBDA,
      matchedP (mac secret merchant_id) B b
        (flipAt (honestKappa b B (mac secret merchant_id) coins) j) x
          = true →
      checkedP (mac secret merchant_id) B x = true := by
    intro x _ hx
    rw [matchedP, Bool.and_eq_true] at hx
    exact hx.1
  have hlt := countP_lt_of_wit
    (matchedP (mac secret merchant_id) B b
      (flipAt (honestKappa b B (mac secret merchant_id) coins) j))
    (checkedP (mac secret merchant_id) B)
    (List.range LAMBDA) himp j (List.mem_range.mpr hj) hchk hmatF
  have hbeqF : (matchCount (mac secret merchant_id) B b
      (flipAt (honestKappa b B (mac secret merchant_id) coins) j) ==
      totalChecked (mac secret merchant_id) B) = false :=
    beq_eq_false_iff_ne.mpr (Nat.ne_of_lt hlt)
  rw [hbeqF]
  simp

/-- C6 witness: flipping position 0 — checked in the spec scenario — of the
honest cryptogram `10100010` makes the Issuer reject. -/
theorem tamper_detection_witness :
    verifyCore "10110010".data "01101100".data "secret_token_abc123"
        "merchant_shop_xyz" (flipAt "10100010".data 0) = .ok false :=
  tamper_detection "10110010".data "01101100".data "10100010".data
    "secret_token_abc123" "merchant_shop_xyz" (fun _ => false) 0
    (by decide) (by decide) (by decide) (by decide) (by decide) (by decide)

/-- C8 counterexample: a cryptogram of length 9 ≠ λ is not rejected as
malformed: Verify raises no fault at all and silently produces an accept
verdict (the character beyond position λ−1 is never read). -/
theorem malformed_length_counterexample :
    ("10100010x".data).length ≠ LAMBDA ∧
    verifyCore "10110010".data "01101100".data "secret_token_abc123"
        "merchant_shop_xyz" "10100010x".data = .ok true := by
  refine ⟨by decide, by decide⟩

/-- C8 amended: Verify has no cryptogram length check.  Any cryptogram with
at least λ characters — in particular any longer than λ — yields the verdict
of its λ-character prefix, with no fault of any kind; a shorter cryptogram
can only fail with the indexing `IndexError` (no `MalformedMessage` fault
exists in the code). -/
theorem verify_no_length_check (b B kappa : List Char)
    (secret merchant_id : String) (hb : b.length = LAMBDA)
    (hB : B.length = LAMBDA) (hk : LAMBDA ≤ kappa.length) :
    verifyCore b B secret merchant_id kappa =
      verifyCore b B secret merchant_id (kappa.take LAMBDA) ∧
    verifyCore b B secret merchant_id kappa =
      .ok ((matchCount (mac secret merchant_id) B b kappa ==
            totalChecked (mac secret merchant_id) B) &&
           decide (0 < totalChecked (mac secret merchant_id) B)) := by
  have h1 := verifyCore_eq b B kappa secret merchant_id hb.ge hB.ge hk
  have htake : LAMBDA ≤ (kappa.take LAMBDA).length := by
    rw [List.length_take]
    exact le_min le_rfl hk
  have h2 := verifyCore_eq b B (kappa.take LAMBDA) secret merchant_id
    hb.ge hB.ge htake
  have hcnt : matchCount (mac secret merchant_id) B b (kappa.take LAMBDA) =
      matchCount (mac secret merchant_id) B b kappa := by
    unfold matchCount
    apply List.countP_congr
    intro x hx
    rw [List.mem_range] at hx
    rw [matchedP, matchedP, getD_take kappa LAMBDA x ' ' hx]
  refine ⟨?_, h1⟩
  rw [h1, h2, hcnt]

/-- C8 amended witness: the 9-character cryptogram `10100010x` verifies to
the same verdict as its 8-character prefix. -/
theorem verify_no_length_check_witness :
    (verifyCore "10110010".data "01101100".data "secret_token_abc123"
        "merchant_shop_xyz" "10100010x".data =
      verifyCore "10110010".data "01101100".data "secret_token_abc123"
        "merchant_shop_xyz" ("10100010x".data.take LAMBDA)) ∧
    verifyCore "10110010".data "01101100".data "secret_token_abc123"
        "merchant_shop_xyz" "10100010x".data =
      .ok ((matchCount (mac "secret_token_abc123" "merchant_shop_xyz")
            "01101100".data "10110010".data "10100010x".data ==
            totalChecked (mac "secret_token_abc123" "merchant_shop_xyz")
            "01101100".data) &&
           decide (0 < totalChecked
             (mac "secret_token_abc123" "merchant_shop_xyz")
             "01101100".data)) :=
  verify_no_length_check "10110010".data "01101100".data "10100010x".data
    "secret_token_abc123" "merchant_shop_xyz"
    (by decide) (by decide) (by decide)

/-- C9 counterexample: issuing while `client_alice` already holds an
outstanding token does not fail — the second Issue silently replaces the
stored token with the new one. -/
theorem issue_overwrite_counterexample :
    (issueStep (issueStep initialTTP "00000000".data "11111111".data)
        "10110010".data "01101100".data).token_storage =
      [("client_alice", ⟨"10110010".data, "01101100".data⟩)] := by
  decide

/-- C9 amended: Issue has no duplicate guard and cannot fail: re-issuing for
the holder silently overwrites the outstanding token, and the secret
registry is untouched. -/
theorem issue_overwrites_silently (st : TTPState) (b B b2 B2 : List Char) :
    List.lookup "client_alice"
      (issueStep (issueStep st b B) b2 B2).token_storage = some ⟨b2, B2⟩ ∧
    (issueStep (issueStep st b B) b2 B2).client_database =
      st.client_database := by
  refine ⟨?_, rfl⟩
  rw [issueStep, issueStep]
  exact lookup_dictSet
    (dictSet st.token_storage "client_alice" ⟨b, B⟩) "client_alice"
    (⟨b2, B2⟩ : Token)

/-- C10: a verification step modifies neither the secret registry nor the
token store: whenever it completes with a verdict — accept or reject alike —
the state it hands back is the state it was given, and in particular the
verified token remains stored under the holder identity. -/
theorem verify_frame (st : TTPState) (req : VerificationRequest) (v : Bool)
    (st' : TTPState) (h : verifyStep st req = .ok (v, st')) :
    st'.client_database = st.client_database ∧
    st'.token_storage = st.token_storage ∧
    List.lookup req.client_id st'.token_storage =
      List.lookup req.client_id st.token_storage := by
  have hst := verifyStep_ok_state st req v st' h
  subst hst
  exact ⟨rfl, rfl, rfl⟩

/-- C10 witness: the frame property at the spec scenario's accepting
verification. -/
theorem verify_frame_witness :
    (issueStep initialTTP "10110010".data "01101100".data).client_database =
      (issueStep initialTTP "10110010".data "01101100".data).client_database
    ∧
    (issueStep initialTTP "10110010".data "01101100".data).token_storage =
      (issueStep initialTTP "10110010".data "01101100".data).token_storage ∧
    List.lookup "client_alice"
        (issueStep initialTTP "10110010".data "01101100".data).token_storage
      =
      List.lookup "client_alice"
        (issueStep initialTTP "10110010".data "01101100".data).token_storage
    :=
  verify_frame (issueStep initialTTP "10110010".data "01101100".data)
    ⟨"client_alice", "10100010".data, "merchant_shop_xyz"⟩ true
    (issueStep initialTTP "10110010".data "01101100".data) (by decide)

end QuantumPayments
